import Mathlib

/-!
Shallow embedding of the Reminder-Agent backend
(src/reminder_agent/backend/main.py).

The durable SQLite store is modelled as a list of `Reminder` rows plus a
list of `User` rows; the APScheduler job store as an association list from
job id (the string "job_" ++ reminder id) to the absolute run timestamp.
Statuses are the raw strings the code writes into the `status` column.
`notifier_notify`, `schedule_job` and each endpoint are translated
function-by-function; endpoints return `Except String _` where the Python
raises `HTTPException` (the raise happens before any DB write, so the error
branch performs no mutation).  Timestamps are `Int` (Unix seconds).
-/

namespace ReminderAgent

/-- A row of the `users` table (the fields `get_user_by_id` selects). -/
structure User where
  id : Nat
  email : String
  deriving Repr, DecidableEq

/-- A row of the `reminders` table. -/
structure Reminder where
  id : String
  user_id : Nat
  title : String
  body : String
  when_ts : Int
  created_at : Int
  status : String
  snooze_until : Option Int
  recurrence : Option String
  repeat_interval : Option Int
  category : Option String
  tags : Option String
  deriving Repr, DecidableEq

/-- An email handed to `smtplib`: recipient, subject, body. -/
structure Email where
  toAddr : String
  subject : String
  body : String
  deriving Repr, DecidableEq

/-- SMTP environment: `SMTP_HOST` from the env (delivery is skipped when
absent) and whether the SMTP transaction would succeed. -/
structure SMTPEnv where
  smtpHost : Option String
  deliverOk : Bool
  deriving Repr, DecidableEq

/-- Whole backend state: users table, reminders table, APScheduler jobs
(job id, run timestamp). -/
structure AppState where
  users : List User
  reminders : List Reminder
  timers : List (String × Int)
  deriving Repr, DecidableEq

/-- Python truthiness of an optional integer (`if rem.get("repeat_interval"):`,
`if since:`): `None` and `0` are falsy. -/
def intTruthy : Option Int → Bool
  | none => false
  | some i => i != 0

/-- Abstraction of `datetime.utcfromtimestamp(ts).isoformat()`: an injective
rendering of the timestamp.  No claim depends on the exact format. -/
def isoformat (ts : Int) : String := toString ts

/-- `job_id = f"job_{reminder_id}"` in `schedule_job`. -/
def jobId (rid : String) : String := "job_" ++ rid

/-- `get_user_by_id`: SELECT id,email FROM users WHERE id=?. -/
def get_user_by_id (users : List User) (uid : Nat) : Option User :=
  users.find? (fun u => u.id == uid)

/-- `load_reminder`: SELECT ... FROM reminders WHERE id=?. -/
def load_reminder (db : List Reminder) (rid : String) : Option Reminder :=
  db.find? (fun r => r.id == rid)

/-- Effect of UPDATE ... SET status=? WHERE id=? on one row. -/
def setStatusRow (rid s : String) (r : Reminder) : Reminder :=
  if r.id = rid then { r with status := s } else r

/-- `update_reminder_status`: UPDATE reminders SET status=? WHERE id=?. -/
def update_reminder_status (db : List Reminder) (rid : String) (s : String) :
    List Reminder :=
  db.map (setStatusRow rid s)

/-- Effect of the notifier's re-arm UPDATE on one row. -/
def rearmRow (rid : String) (w : Int) (r : Reminder) : Reminder :=
  if r.id = rid then { r with when_ts := w, status := "scheduled" } else r

/-- The UPDATE in the notifier's re-arm branch:
UPDATE reminders SET when_ts=?, status='scheduled' WHERE id=?. -/
def update_rearm (db : List Reminder) (rid : String) (w : Int) : List Reminder :=
  db.map (rearmRow rid w)

/-- Effect of the snooze UPDATE on one row. -/
def snoozeRow (rid : String) (ts : Int) (r : Reminder) : Reminder :=
  if r.id = rid
  then { r with snooze_until := some ts, when_ts := ts, status := "scheduled" }
  else r

/-- The UPDATE in `snooze_reminder`:
UPDATE reminders SET snooze_until=?, when_ts=?, status='scheduled' WHERE id=?. -/
def update_snooze (db : List Reminder) (rid : String) (ts : Int) : List Reminder :=
  db.map (snoozeRow rid ts)

/-- `scheduler.remove_job(job_id)` wrapped in try/except pass: removes the
job with that id if present, a no-op otherwise. -/
def remove_job (tms : List (String × Int)) (jid : String) : List (String × Int) :=
  tms.filter (fun p => p.1 != jid)

/-- `schedule_job(reminder_id, when_dt)`: remove any existing job for this
id (ignoring errors), then add a date-trigger job at `when_dt`. -/
def schedule_job (tms : List (String × Int)) (rid : String) (w : Int) :
    List (String × Int) :=
  remove_job tms (jobId rid) ++ [(jobId rid, w)]

/-- `send_email`: returns False when SMTP is unconfigured or the SMTP
transaction fails (exceptions are caught), True on success.  The notifier
discards this result. -/
def send_email (env : SMTPEnv) : Bool :=
  match env.smtpHost with
  | none => false
  | some _ => env.deliverOk

/-- The email the notifier composes for the reminder's owner, if the owner
exists: subject from the title, body from the body plus the originally
scheduled time. -/
def emailsOf (users : List User) (rem : Reminder) : List Email :=
  match get_user_by_id users rem.user_id with
  | some u =>
    [{ toAddr := u.email, subject := "Reminder: " ++ rem.title,
       body := rem.body ++ " Scheduled for: " ++ isoformat rem.when_ts }]
  | none => []

/-- `notifier_notify(reminder_id)`: load the reminder (stop silently if
absent), mark it fired, compose and attempt the email if the owner exists,
and if `repeat_interval` is truthy persist when_ts+interval with status
'scheduled' and arm a new timer there.  Returns the new state and the list
of emails whose delivery was attempted. -/
def notifier_notify (env : SMTPEnv) (st : AppState) (rid : String) :
    AppState × List Email :=
  match load_reminder st.reminders rid with
  | none => (st, [])
  | some rem =>
    let db1 := update_reminder_status st.reminders rid "fired"
    let emails := emailsOf st.users rem
    let _sent := send_email env
    if intTruthy rem.repeat_interval then
      let next := rem.when_ts + rem.repeat_interval.getD 0
      ({ st with reminders := update_rearm db1 rid next,
                 timers := schedule_job st.timers rid next }, emails)
    else
      ({ st with reminders := db1 }, emails)

/-- A date-trigger job expiring: APScheduler removes the one-shot job from
the store and invokes the callback `notifier_notify` with the reminder id. -/
def fireStep (env : SMTPEnv) (st : AppState) (rid : String) : AppState :=
  (notifier_notify env { st with timers := remove_job st.timers (jobId rid) } rid).1

/-- `fireStep` iterated n times on the same reminder id. -/
def fireN (env : SMTPEnv) (st : AppState) (rid : String) : Nat → AppState
  | 0 => st
  | n + 1 => fireStep env (fireN env st rid n) rid

/-- `save_reminder_db` + the INSERT's TEXT PRIMARY KEY constraint: inserting
a duplicate id raises IntegrityError, so the insert only happens on a fresh
id.  Status starts as 'scheduled'. -/
def save_reminder_db (db : List Reminder) (rid : String) (uid : Nat)
    (title body : String) (when_ts now : Int) (recurrence : Option String)
    (repeat_interval : Option Int) (category tags : Option String) :
    List Reminder :=
  db ++ [{ id := rid, user_id := uid, title := title, body := body,
           when_ts := when_ts, created_at := now, status := "scheduled",
           snooze_until := none, recurrence := recurrence,
           repeat_interval := repeat_interval, category := category,
           tags := tags }]

/-- POST /reminders: insert the row with status 'scheduled', then
`schedule_job(rid, payload.when)`.  Errors (duplicate primary key) leave
the state unchanged. -/
def create_reminder (st : AppState) (uid : Nat) (rid : String)
    (title body : String) (when_ts now : Int) (recurrence : Option String)
    (repeat_interval : Option Int) (category tags : Option String) : AppState :=
  match load_reminder st.reminders rid with
  | some _ => st
  | none =>
    { st with
      reminders := save_reminder_db st.reminders rid uid title body when_ts now
        recurrence repeat_interval category tags,
      timers := schedule_job st.timers rid when_ts }

/-- POST /reminders/(rid)/snooze: 404 when the reminder is absent or owned
by another user; otherwise set snooze_until/when_ts to now+minutes*60,
status 'scheduled', and re-schedule the job. -/
def snooze_reminder (st : AppState) (uid : Nat) (rid : String)
    (minutes : Int) (now : Int) : Except String AppState :=
  match load_reminder st.reminders rid with
  | none => .error "Not found"
  | some rem =>
    if rem.user_id != uid then .error "Not found"
    else
      let new_ts := now + minutes * 60
      .ok { st with reminders := update_snooze st.reminders rid new_ts,
                    timers := schedule_job st.timers rid new_ts }

/-- POST /reminders/(rid)/cancel: 404 when absent or not owned; otherwise
set status 'cancelled' and remove the job (ignoring a missing job). -/
def cancel_reminder (st : AppState) (uid : Nat) (rid : String) :
    Except String AppState :=
  match load_reminder st.reminders rid with
  | none => .error "Reminder not found"
  | some rem =>
    if rem.user_id != uid then .error "Reminder not found"
    else
      .ok { st with reminders := update_reminder_status st.reminders rid "cancelled",
                    timers := remove_job st.timers (jobId rid) }

/-- DELETE /reminders/(rid): 404 when absent or not owned; otherwise delete
the row and remove the job (ignoring a missing job). -/
def delete_reminder (st : AppState) (uid : Nat) (rid : String) :
    Except String AppState :=
  match load_reminder st.reminders rid with
  | none => .error "Reminder not found"
  | some rem =>
    if rem.user_id != uid then .error "Reminder not found"
    else
      .ok { st with reminders := st.reminders.filter (fun r => r.id != rid),
                    timers := remove_job st.timers (jobId rid) }

/-- A row of GET /reminders' response. -/
structure ReminderOut where
  id : String
  title : String
  body : String
  when : Int
  status : String
  category : Option String
  tags : Option String
  deriving Repr, DecidableEq

/-- Projection of a reminder row onto GET /reminders' response fields. -/
def remOut (r : Reminder) : ReminderOut :=
  { id := r.id, title := r.title, body := r.body, when := r.when_ts,
    status := r.status, category := r.category, tags := r.tags }

/-- GET /reminders: SELECT ... WHERE user_id=?. -/
def get_reminders (st : AppState) (uid : Nat) : List ReminderOut :=
  (st.reminders.filter (fun r => r.user_id == uid)).map remOut

/-- A row of GET /notifications/poll's response. -/
structure NotificationOut where
  id : String
  title : String
  body : String
  when : Int
  deriving Repr, DecidableEq

/-- Projection of a reminder row onto the poll response fields. -/
def notifOut (r : Reminder) : NotificationOut :=
  { id := r.id, title := r.title, body := r.body, when := r.when_ts }

/-- GET /notifications/poll: `if since:` is Python truthiness, so the
when_ts filter applies only when `since` is present and nonzero. -/
def poll_notifications (st : AppState) (uid : Nat) (since : Option Int) :
    List NotificationOut :=
  if intTruthy since then
    (st.reminders.filter (fun r =>
      r.status == "fired" && decide (r.when_ts > since.getD 0) && r.user_id == uid)).map notifOut
  else
    (st.reminders.filter (fun r =>
      r.status == "fired" && r.user_id == uid)).map notifOut

/-! ### Basic lemmas about the store and the job map -/

/-- jobId is injective: two distinct reminder ids get distinct job ids. -/
theorem jobId_inj {a b : String} (h : jobId a = jobId b) : a = b := by
  have hd := congrArg String.data h
  simp only [jobId, String.data_append] at hd
  exact String.ext (List.append_cancel_left hd)

/-- Finding in a mapped store, when the map preserves ids. -/
theorem load_reminder_map (db : List Reminder) (rid : String)
    (f : Reminder → Reminder) (hf : ∀ r, (f r).id = r.id) :
    load_reminder (db.map f) rid = (load_reminder db rid).map f := by
  induction db with
  | nil => rfl
  | cons a l ih =>
    unfold load_reminder at *
    simp only [List.map_cons, List.find?_cons]
    by_cases h : a.id = rid
    · simp [hf, h]
    · have h1 : ((f a).id == rid) = false := by simp [hf, h]
      have h2 : (a.id == rid) = false := by simp [h]
      simp only [h1, h2]
      exact ih

/-- With duplicate-free ids, a member is found under its own id. -/
theorem load_of_mem_nodup {db : List Reminder} {r : Reminder}
    (hmem : r ∈ db) (hnd : (db.map Reminder.id).Nodup) :
    load_reminder db r.id = some r := by
  induction db with
  | nil => cases hmem
  | cons a l ih =>
    rw [List.map_cons, List.nodup_cons] at hnd
    rcases List.mem_cons.mp hmem with rfl | h
    · unfold load_reminder
      rw [List.find?_cons_of_pos]
      simp
    · have hne : a.id ≠ r.id := fun he => hnd.1 (he ▸ List.mem_map_of_mem _ h)
      unfold load_reminder at *
      rw [List.find?_cons_of_neg]
      · exact ih h hnd.2
      · simp [hne]

/-- A found reminder is a member whose id matches the key. -/
theorem load_eq_some_mem {db : List Reminder} {rid : String} {r : Reminder}
    (h : load_reminder db rid = some r) : r ∈ db ∧ r.id = rid := by
  refine ⟨List.mem_of_find?_eq_some h, ?_⟩
  have := List.find?_some h
  simpa using this

/-- A store update that preserves ids leaves the id column unchanged. -/
theorem map_ids_of_preserve (db : List Reminder) (f : Reminder → Reminder)
    (hf : ∀ r, (f r).id = r.id) :
    (db.map f).map Reminder.id = db.map Reminder.id := by
  rw [List.map_map]
  exact List.map_congr_left (fun r _ => hf r)

theorem setStatusRow_id (rid s : String) (r : Reminder) :
    (setStatusRow rid s r).id = r.id := by
  by_cases h : r.id = rid <;> simp [setStatusRow, h]

theorem setStatusRow_of_ne {rid : String} {r : Reminder} (s : String)
    (h : r.id ≠ rid) : setStatusRow rid s r = r := by
  simp [setStatusRow, h]

theorem setStatusRow_of_eq {rid : String} {r : Reminder} (s : String)
    (h : r.id = rid) : setStatusRow rid s r = { r with status := s } := by
  simp [setStatusRow, h]

theorem rearmRow_id (rid : String) (w : Int) (r : Reminder) :
    (rearmRow rid w r).id = r.id := by
  by_cases h : r.id = rid <;> simp [rearmRow, h]

theorem rearmRow_of_ne {rid : String} {r : Reminder} (w : Int)
    (h : r.id ≠ rid) : rearmRow rid w r = r := by
  simp [rearmRow, h]

theorem rearmRow_of_eq {rid : String} {r : Reminder} (w : Int)
    (h : r.id = rid) :
    rearmRow rid w r = { r with when_ts := w, status := "scheduled" } := by
  simp [rearmRow, h]

theorem snoozeRow_id (rid : String) (ts : Int) (r : Reminder) :
    (snoozeRow rid ts r).id = r.id := by
  by_cases h : r.id = rid <;> simp [snoozeRow, h]

theorem snoozeRow_of_ne {rid : String} {r : Reminder} (ts : Int)
    (h : r.id ≠ rid) : snoozeRow rid ts r = r := by
  simp [snoozeRow, h]

theorem snoozeRow_of_eq {rid : String} {r : Reminder} (ts : Int)
    (h : r.id = rid) :
    snoozeRow rid ts r =
      { r with snooze_until := some ts, when_ts := ts, status := "scheduled" } := by
  simp [snoozeRow, h]

/-- The id column is untouched by the three UPDATE shapes. -/
theorem ids_update_reminder_status (db : List Reminder) (rid s : String) :
    (update_reminder_status db rid s).map Reminder.id = db.map Reminder.id :=
  map_ids_of_preserve db _ (setStatusRow_id rid s)

theorem ids_update_rearm (db : List Reminder) (rid : String) (w : Int) :
    (update_rearm db rid w).map Reminder.id = db.map Reminder.id :=
  map_ids_of_preserve db _ (rearmRow_id rid w)

theorem ids_update_snooze (db : List Reminder) (rid : String) (ts : Int) :
    (update_snooze db rid ts).map Reminder.id = db.map Reminder.id :=
  map_ids_of_preserve db _ (snoozeRow_id rid ts)

/-- Loading from an updated store, for the three UPDATE shapes. -/
theorem load_update_reminder_status (db : List Reminder) (rid s rid' : String) :
    load_reminder (update_reminder_status db rid s) rid' =
      (load_reminder db rid').map (setStatusRow rid s) :=
  load_reminder_map db rid' _ (setStatusRow_id rid s)

theorem load_update_rearm (db : List Reminder) (rid : String) (w : Int)
    (rid' : String) :
    load_reminder (update_rearm db rid w) rid' =
      (load_reminder db rid').map (rearmRow rid w) :=
  load_reminder_map db rid' _ (rearmRow_id rid w)

theorem load_update_snooze (db : List Reminder) (rid : String) (ts : Int)
    (rid' : String) :
    load_reminder (update_snooze db rid ts) rid' =
      (load_reminder db rid').map (snoozeRow rid ts) :=
  load_reminder_map db rid' _ (snoozeRow_id rid ts)

/-- Removing a job leaves no entry under that job id. -/
theorem remove_job_filter (tms : List (String × Int)) (jid : String) :
    (remove_job tms jid).filter (fun p => p.1 == jid) = [] := by
  simp only [remove_job, List.filter_filter]
  apply List.filter_eq_nil_iff.mpr
  intro p _
  by_cases h : p.1 = jid <;> simp [h]

/-- Removing a job does not touch entries under other job ids. -/
theorem remove_job_filter_other (tms : List (String × Int)) (jid jid' : String)
    (h : jid' ≠ jid) :
    (remove_job tms jid).filter (fun p => p.1 == jid') =
      tms.filter (fun p => p.1 == jid') := by
  simp only [remove_job, List.filter_filter]
  apply List.filter_congr
  intro p _
  by_cases hp : p.1 = jid'
  · have hne : p.1 ≠ jid := hp ▸ h
    simp [hp, bne_iff_ne, h]
  · simp [hp]

/-- After `schedule_job`, exactly the one new entry exists under this id. -/
theorem schedule_job_filter_self (tms : List (String × Int)) (rid : String) (w : Int) :
    (schedule_job tms rid w).filter (fun p => p.1 == jobId rid) = [(jobId rid, w)] := by
  simp only [schedule_job, List.filter_append, remove_job_filter]
  simp

/-- `schedule_job` does not touch entries under other job ids. -/
theorem schedule_job_filter_other (tms : List (String × Int)) (rid : String)
    (w : Int) (jid : String) (h : jid ≠ jobId rid) :
    (schedule_job tms rid w).filter (fun p => p.1 == jid) =
      tms.filter (fun p => p.1 == jid) := by
  simp only [schedule_job, List.filter_append, remove_job_filter_other tms _ _ h]
  have : (jobId rid == jid) = false := by simp [Ne.symm h]
  simp [this]

/-! ### Traces of API and scheduler events -/

/-- One externally triggered event: an authenticated endpoint call, or a
timer expiry inside the scheduler loop. -/
inductive Op where
  | create (uid : Nat) (rid : String) (title body : String) (when_ts now : Int)
      (recurrence : Option String) (repeat_interval : Option Int)
      (category tags : Option String)
  | snooze (uid : Nat) (rid : String) (minutes now : Int)
  | cancel (uid : Nat) (rid : String)
  | delete (uid : Nat) (rid : String)
  | fire (rid : String)
  deriving Repr, DecidableEq

/-- SMTP unconfigured (the delivery outcome never affects the store;
proved below as notifier_state_env_independent). -/
def defaultEnv : SMTPEnv := { smtpHost := none, deliverOk := false }

/-- Small-step semantics: an endpoint that raises HTTPException performs no
DB write, so the error branch leaves the state unchanged; a timer only
expires if it is actually pending. -/
def step (st : AppState) : Op → AppState
  | .create uid rid t b w n rec rep c tg =>
    create_reminder st uid rid t b w n rec rep c tg
  | .snooze uid rid m now => (snooze_reminder st uid rid m now).toOption.getD st
  | .cancel uid rid => (cancel_reminder st uid rid).toOption.getD st
  | .delete uid rid => (delete_reminder st uid rid).toOption.getD st
  | .fire rid =>
    if st.timers.any (fun p => p.1 == jobId rid)
    then fireStep defaultEnv st rid else st

/-- Backend state at process start: registered users, empty tables. -/
def initState (users : List User) : AppState :=
  { users := users, reminders := [], timers := [] }

/-- Final state after a list of events. -/
def runOps (users : List User) (ops : List Op) : AppState :=
  ops.foldl step (initState users)

/-- All states visited while executing a list of events. -/
def states (st : AppState) : List Op → List AppState
  | [] => [st]
  | op :: ops => st :: states (step st op) ops

/-- Adjacent-pair check along a trajectory. -/
def adjacentOK (rel : AppState → AppState → Bool) : List AppState → Bool
  | a :: b :: rest => rel a b && adjacentOK rel (b :: rest)
  | _ => true

/-- The status found under an id after an operation. -/
def statusAfter (db : List Reminder) (rid : String) : Option String :=
  (load_reminder db rid).map Reminder.status

/-- One adjacent step changes statuses only along `rel` (or not at all). -/
def changeOK (rel : String → String → Bool) (pre post : AppState) : Bool :=
  pre.reminders.all (fun r =>
    match statusAfter post.reminders r.id with
    | none => true
    | some s => r.status == s || rel r.status s)

/-- The transition relation the spec enumerates: scheduled to fired,
scheduled to cancelled, fired to scheduled. -/
def specAllowed (a b : String) : Bool :=
  (a == "scheduled" && b == "fired") || (a == "scheduled" && b == "cancelled") ||
    (a == "fired" && b == "scheduled")

/-- The transition relation the code actually implements: anything can be
snoozed back to scheduled or cancelled, and only a scheduled reminder
(the only kind with a pending timer) can become fired. -/
def codeAllowed (a b : String) : Bool :=
  b == "scheduled" || b == "cancelled" || (a == "scheduled" && b == "fired")

/-- A status string the store can hold. -/
def goodStatus (s : String) : Prop :=
  s = "scheduled" ∨ s = "fired" ∨ s = "cancelled"

/-- Reachability invariant of the backend: duplicate-free reminder ids,
statuses among the three enumerated values, duplicate-free job ids, and
every pending timer belongs to a reminder in scheduled status. -/
structure Inv (st : AppState) : Prop where
  nodupIds : (st.reminders.map Reminder.id).Nodup
  statusOk : ∀ r ∈ st.reminders, goodStatus r.status
  nodupTimers : (st.timers.map Prod.fst).Nodup
  timerScheduled : ∀ p ∈ st.timers,
    ∃ r ∈ st.reminders, jobId r.id = p.1 ∧ r.status = "scheduled"

/-! ### Membership and nodup lemmas for the job map -/

theorem mem_remove_job {tms : List (String × Int)} {jid : String} {p : String × Int}
    (h : p ∈ remove_job tms jid) : p ∈ tms ∧ p.1 ≠ jid := by
  have := List.mem_filter.mp h
  refine ⟨this.1, ?_⟩
  have h2 := this.2
  simpa [bne_iff_ne] using h2

theorem nodup_remove_job {tms : List (String × Int)} {jid : String}
    (h : (tms.map Prod.fst).Nodup) :
    ((remove_job tms jid).map Prod.fst).Nodup :=
  ((List.filter_sublist tms).map Prod.fst).nodup h

theorem not_mem_remove_job_key (tms : List (String × Int)) (jid : String) :
    jid ∉ (remove_job tms jid).map Prod.fst := by
  intro hmem
  rcases List.mem_map.mp hmem with ⟨p, hp, hkey⟩
  exact (mem_remove_job hp).2 hkey

theorem nodup_schedule_job {tms : List (String × Int)} {rid : String} {w : Int}
    (h : (tms.map Prod.fst).Nodup) :
    ((schedule_job tms rid w).map Prod.fst).Nodup := by
  unfold schedule_job
  rw [List.map_append]
  refine List.nodup_append.mpr ⟨nodup_remove_job h, by simp, ?_⟩
  intro a ha hb
  simp only [List.map_cons, List.map_nil, List.mem_singleton] at hb
  subst hb
  exact not_mem_remove_job_key tms (jobId rid) ha

theorem mem_schedule_job {tms : List (String × Int)} {rid : String} {w : Int}
    {p : String × Int} (h : p ∈ schedule_job tms rid w) :
    (p ∈ tms ∧ p.1 ≠ jobId rid) ∨ p = (jobId rid, w) := by
  rcases List.mem_append.mp h with h1 | h1
  · exact Or.inl (mem_remove_job h1)
  · exact Or.inr (List.mem_singleton.mp h1)

/-! ### Unfolding lemmas for the notifier -/

theorem notifier_notify_of_absent (env : SMTPEnv) (st : AppState) (rid : String)
    (h : load_reminder st.reminders rid = none) :
    notifier_notify env st rid = (st, []) := by
  simp [notifier_notify, h]

theorem notifier_notify_of_norec (env : SMTPEnv) (st : AppState) (rid : String)
    (rem : Reminder) (h : load_reminder st.reminders rid = some rem)
    (hrec : intTruthy rem.repeat_interval = false) :
    notifier_notify env st rid =
      ({ st with reminders := update_reminder_status st.reminders rid "fired" },
        emailsOf st.users rem) := by
  simp [notifier_notify, h, hrec]

theorem notifier_notify_of_rec (env : SMTPEnv) (st : AppState) (rid : String)
    (rem : Reminder) (h : load_reminder st.reminders rid = some rem)
    (hrec : intTruthy rem.repeat_interval = true) :
    notifier_notify env st rid =
      ({ st with
          reminders := update_rearm (update_reminder_status st.reminders rid "fired")
            rid (rem.when_ts + rem.repeat_interval.getD 0),
          timers := schedule_job st.timers rid
            (rem.when_ts + rem.repeat_interval.getD 0) },
        emailsOf st.users rem) := by
  simp [notifier_notify, h, hrec]

/-! ### Preservation of the reachability invariant -/

theorem inv_create (st : AppState) (uid : Nat) (rid : String) (t b : String)
    (w n : Int) (rec : Option String) (rep : Option Int) (c tg : Option String)
    (h : Inv st) : Inv (create_reminder st uid rid t b w n rec rep c tg) := by
  unfold create_reminder
  cases hl : load_reminder st.reminders rid with
  | some rem => exact h
  | none =>
    have hfresh : ∀ r ∈ st.reminders, r.id ≠ rid := by
      intro r hr he
      have := List.find?_eq_none.mp hl r hr
      simp [he] at this
    constructor
    · simp only [save_reminder_db, List.map_append, List.map_cons, List.map_nil]
      refine List.nodup_append.mpr ⟨h.nodupIds, by simp, ?_⟩
      intro a ha hb
      simp only [List.mem_singleton] at hb
      subst hb
      rcases List.mem_map.mp ha with ⟨r, hr, hid⟩
      exact hfresh r hr hid
    · intro r hr
      rcases List.mem_append.mp hr with h1 | h1
      · exact h.statusOk r h1
      · simp only [List.mem_singleton] at h1
        subst h1
        exact Or.inl rfl
    · exact nodup_schedule_job h.nodupTimers
    · intro p hp
      rcases mem_schedule_job hp with ⟨h1, _⟩ | h1
      · rcases h.timerScheduled p h1 with ⟨r, hr, hkey, hs⟩
        exact ⟨r, List.mem_append_left _ hr, hkey, hs⟩
      · subst h1
        refine ⟨_, List.mem_append_right _ (List.mem_singleton.mpr rfl), rfl, rfl⟩

theorem inv_snooze_state (st : AppState) (rid : String) (ts : Int)
    (rem : Reminder) (hl : load_reminder st.reminders rid = some rem)
    (h : Inv st) :
    Inv { st with reminders := update_snooze st.reminders rid ts,
                  timers := schedule_job st.timers rid ts } := by
  obtain ⟨hmem, hid⟩ := load_eq_some_mem hl
  constructor
  · show ((update_snooze st.reminders rid ts).map Reminder.id).Nodup
    rw [ids_update_snooze]
    exact h.nodupIds
  · intro r' hr'
    rcases List.mem_map.mp hr' with ⟨r, hr, hfr⟩
    subst hfr
    by_cases he : r.id = rid
    · rw [snoozeRow_of_eq ts he]
      exact Or.inl rfl
    · rw [snoozeRow_of_ne ts he]
      exact h.statusOk r hr
  · exact nodup_schedule_job h.nodupTimers
  · intro p hp
    rcases mem_schedule_job hp with ⟨h1, hne⟩ | h1
    · rcases h.timerScheduled p h1 with ⟨r, hr, hkey, hs⟩
      have hrne : r.id ≠ rid := fun he => hne (hkey ▸ he ▸ rfl)
      refine ⟨r, ?_, hkey, hs⟩
      exact (snoozeRow_of_ne ts hrne) ▸ List.mem_map_of_mem _ hr
    · subst h1
      refine ⟨snoozeRow rid ts rem, List.mem_map_of_mem _ hmem, ?_, ?_⟩
      · rw [snoozeRow_id, hid]
      · rw [snoozeRow_of_eq ts hid]

theorem inv_cancel_state (st : AppState) (rid : String) (h : Inv st) :
    Inv { st with reminders := update_reminder_status st.reminders rid "cancelled",
                  timers := remove_job st.timers (jobId rid) } := by
  constructor
  · show ((update_reminder_status st.reminders rid "cancelled").map Reminder.id).Nodup
    rw [ids_update_reminder_status]
    exact h.nodupIds
  · intro r' hr'
    rcases List.mem_map.mp hr' with ⟨r, hr, hfr⟩
    subst hfr
    by_cases he : r.id = rid
    · rw [setStatusRow_of_eq _ he]
      exact Or.inr (Or.inr rfl)
    · rw [setStatusRow_of_ne _ he]
      exact h.statusOk r hr
  · exact nodup_remove_job h.nodupTimers
  · intro p hp
    obtain ⟨h1, hne⟩ := mem_remove_job hp
    rcases h.timerScheduled p h1 with ⟨r, hr, hkey, hs⟩
    have hrne : r.id ≠ rid := fun he => hne (hkey ▸ he ▸ rfl)
    refine ⟨r, ?_, hkey, hs⟩
    exact (setStatusRow_of_ne _ hrne) ▸ List.mem_map_of_mem _ hr

theorem inv_delete_state (st : AppState) (rid : String) (h : Inv st) :
    Inv { st with reminders := st.reminders.filter (fun r => r.id != rid),
                  timers := remove_job st.timers (jobId rid) } := by
  constructor
  · exact ((List.filter_sublist st.reminders).map Reminder.id).nodup h.nodupIds
  · intro r hr
    exact h.statusOk r (List.mem_of_mem_filter hr)
  · exact nodup_remove_job h.nodupTimers
  · intro p hp
    obtain ⟨h1, hne⟩ := mem_remove_job hp
    rcases h.timerScheduled p h1 with ⟨r, hr, hkey, hs⟩
    have hrne : r.id ≠ rid := fun he => hne (hkey ▸ he ▸ rfl)
    exact ⟨r, List.mem_filter.mpr ⟨hr, by simp [bne_iff_ne, hrne]⟩, hkey, hs⟩

/-! ### Unfolding lemmas for the endpoints -/

theorem create_reminder_of_dup (st : AppState) (uid : Nat) (rid : String)
    (t b : String) (w n : Int) (rec : Option String) (rep : Option Int)
    (c tg : Option String) (rem : Reminder)
    (hl : load_reminder st.reminders rid = some rem) :
    create_reminder st uid rid t b w n rec rep c tg = st := by
  simp [create_reminder, hl]

theorem create_reminder_of_fresh (st : AppState) (uid : Nat) (rid : String)
    (t b : String) (w n : Int) (rec : Option String) (rep : Option Int)
    (c tg : Option String) (hl : load_reminder st.reminders rid = none) :
    create_reminder st uid rid t b w n rec rep c tg =
      { st with
        reminders := save_reminder_db st.reminders rid uid t b w n rec rep c tg,
        timers := schedule_job st.timers rid w } := by
  simp [create_reminder, hl]

theorem snooze_reminder_of_absent (st : AppState) (uid : Nat) (rid : String)
    (m now : Int) (hl : load_reminder st.reminders rid = none) :
    snooze_reminder st uid rid m now = .error "Not found" := by
  simp [snooze_reminder, hl]

theorem snooze_reminder_of_wrong_user (st : AppState) (uid : Nat) (rid : String)
    (m now : Int) (rem : Reminder) (hl : load_reminder st.reminders rid = some rem)
    (hu : rem.user_id ≠ uid) :
    snooze_reminder st uid rid m now = .error "Not found" := by
  simp [snooze_reminder, hl, bne_iff_ne, hu]

theorem snooze_reminder_of_ok (st : AppState) (uid : Nat) (rid : String)
    (m now : Int) (rem : Reminder) (hl : load_reminder st.reminders rid = some rem)
    (hu : rem.user_id = uid) :
    snooze_reminder st uid rid m now =
      .ok { st with reminders := update_snooze st.reminders rid (now + m * 60),
                    timers := schedule_job st.timers rid (now + m * 60) } := by
  simp [snooze_reminder, hl, hu]

theorem cancel_reminder_of_absent (st : AppState) (uid : Nat) (rid : String)
    (hl : load_reminder st.reminders rid = none) :
    cancel_reminder st uid rid = .error "Reminder not found" := by
  simp [cancel_reminder, hl]

theorem cancel_reminder_of_wrong_user (st : AppState) (uid : Nat) (rid : String)
    (rem : Reminder) (hl : load_reminder st.reminders rid = some rem)
    (hu : rem.user_id ≠ uid) :
    cancel_reminder st uid rid = .error "Reminder not found" := by
  simp [cancel_reminder, hl, bne_iff_ne, hu]

theorem cancel_reminder_of_ok (st : AppState) (uid : Nat) (rid : String)
    (rem : Reminder) (hl : load_reminder st.reminders rid = some rem)
    (hu : rem.user_id = uid) :
    cancel_reminder st uid rid =
      .ok { st with reminders := update_reminder_status st.reminders rid "cancelled",
                    timers := remove_job st.timers (jobId rid) } := by
  simp [cancel_reminder, hl, hu]

theorem delete_reminder_of_absent (st : AppState) (uid : Nat) (rid : String)
    (hl : load_reminder st.reminders rid = none) :
    delete_reminder st uid rid = .error "Reminder not found" := by
  simp [delete_reminder, hl]

theorem delete_reminder_of_wrong_user (st : AppState) (uid : Nat) (rid : String)
    (rem : Reminder) (hl : load_reminder st.reminders rid = some rem)
    (hu : rem.user_id ≠ uid) :
    delete_reminder st uid rid = .error "Reminder not found" := by
  simp [delete_reminder, hl, bne_iff_ne, hu]

theorem delete_reminder_of_ok (st : AppState) (uid : Nat) (rid : String)
    (rem : Reminder) (hl : load_reminder st.reminders rid = some rem)
    (hu : rem.user_id = uid) :
    delete_reminder st uid rid =
      .ok { st with reminders := st.reminders.filter (fun r => r.id != rid),
                    timers := remove_job st.timers (jobId rid) } := by
  simp [delete_reminder, hl, hu]

theorem inv_remove_timers (st : AppState) (jid : String) (h : Inv st) :
    Inv { st with timers := remove_job st.timers jid } := by
  constructor
  · exact h.nodupIds
  · exact h.statusOk
  · exact nodup_remove_job h.nodupTimers
  · intro p hp
    exact h.timerScheduled p (mem_remove_job hp).1

theorem inv_fireStep (env : SMTPEnv) (st : AppState) (rid : String) (h : Inv st) :
    Inv (fireStep env st rid) := by
  unfold fireStep
  set st1 := { st with timers := remove_job st.timers (jobId rid) } with hst1
  have h1 : Inv st1 := inv_remove_timers st (jobId rid) h
  have hnotimer : ∀ p ∈ st1.timers, p.1 ≠ jobId rid := by
    intro p hp
    exact (mem_remove_job hp).2
  cases hl : load_reminder st1.reminders rid with
  | none =>
    rw [notifier_notify_of_absent env st1 rid hl]
    exact h1
  | some rem =>
    obtain ⟨hmem, hid⟩ := load_eq_some_mem hl
    cases hrec : intTruthy rem.repeat_interval with
    | false =>
      rw [notifier_notify_of_norec env st1 rid rem hl hrec]
      constructor
      · show ((update_reminder_status st1.reminders rid "fired").map Reminder.id).Nodup
        rw [ids_update_reminder_status]
        exact h1.nodupIds
      · intro r' hr'
        rcases List.mem_map.mp hr' with ⟨r, hr, hfr⟩
        subst hfr
        by_cases he : r.id = rid
        · rw [setStatusRow_of_eq _ he]
          exact Or.inr (Or.inl rfl)
        · rw [setStatusRow_of_ne _ he]
          exact h1.statusOk r hr
      · exact h1.nodupTimers
      · intro p hp
        rcases h1.timerScheduled p hp with ⟨r, hr, hkey, hs⟩
        have hrne : r.id ≠ rid := fun he => hnotimer p hp (hkey ▸ he ▸ rfl)
        refine ⟨r, ?_, hkey, hs⟩
        exact (setStatusRow_of_ne _ hrne) ▸ List.mem_map_of_mem _ hr
    | true =>
      rw [notifier_notify_of_rec env st1 rid rem hl hrec]
      constructor
      · show ((update_rearm (update_reminder_status st1.reminders rid "fired") rid
          (rem.when_ts + rem.repeat_interval.getD 0)).map Reminder.id).Nodup
        rw [ids_update_rearm, ids_update_reminder_status]
        exact h1.nodupIds
      · intro r' hr'
        rcases List.mem_map.mp hr' with ⟨r0, hr0, hfr⟩
        subst hfr
        rcases List.mem_map.mp hr0 with ⟨r, hr, hfr2⟩
        subst hfr2
        by_cases he : r.id = rid
        · have hse : (setStatusRow rid "fired" r).id = rid := by
            rw [setStatusRow_id]
            exact he
          rw [rearmRow_of_eq _ hse]
          exact Or.inl rfl
        · have hse : (setStatusRow rid "fired" r).id ≠ rid := by
            rw [setStatusRow_id]
            exact he
          rw [rearmRow_of_ne _ hse, setStatusRow_of_ne _ he]
          exact h1.statusOk r hr
      · exact nodup_schedule_job h1.nodupTimers
      · intro p hp
        rcases mem_schedule_job hp with ⟨hpmem, hne⟩ | hpeq
        · rcases h1.timerScheduled p hpmem with ⟨r, hr, hkey, hs⟩
          have hrne : r.id ≠ rid := fun he => hne (hkey ▸ he ▸ rfl)
          have hsne : (setStatusRow rid "fired" r).id ≠ rid := by
            rw [setStatusRow_id]
            exact hrne
          refine ⟨r, ?_, hkey, hs⟩
          have hmm : rearmRow rid (rem.when_ts + rem.repeat_interval.getD 0)
              (setStatusRow rid "fired" r) ∈
              update_rearm (update_reminder_status st1.reminders rid "fired") rid
                (rem.when_ts + rem.repeat_interval.getD 0) :=
            List.mem_map_of_mem _ (List.mem_map_of_mem _ hr)
          rwa [rearmRow_of_ne _ hsne, setStatusRow_of_ne _ hrne] at hmm
        · subst hpeq
          refine ⟨rearmRow rid (rem.when_ts + rem.repeat_interval.getD 0)
            (setStatusRow rid "fired" rem),
            List.mem_map_of_mem _ (List.mem_map_of_mem _ hmem), ?_, ?_⟩
          · rw [rearmRow_id, setStatusRow_id, hid]
          · have hse : (setStatusRow rid "fired" rem).id = rid := by
              rw [setStatusRow_id]
              exact hid
            rw [rearmRow_of_eq _ hse]

theorem inv_step (st : AppState) (op : Op) (h : Inv st) : Inv (step st op) := by
  cases op with
  | create uid rid t b w n rec rep c tg => exact inv_create st uid rid t b w n rec rep c tg h
  | snooze uid rid m now =>
    show Inv ((snooze_reminder st uid rid m now).toOption.getD st)
    cases hl : load_reminder st.reminders rid with
    | none =>
      rw [snooze_reminder_of_absent st uid rid m now hl]
      exact h
    | some rem =>
      by_cases hu : rem.user_id = uid
      · rw [snooze_reminder_of_ok st uid rid m now rem hl hu]
        exact inv_snooze_state st rid (now + m * 60) rem hl h
      · rw [snooze_reminder_of_wrong_user st uid rid m now rem hl hu]
        exact h
  | cancel uid rid =>
    show Inv ((cancel_reminder st uid rid).toOption.getD st)
    cases hl : load_reminder st.reminders rid with
    | none =>
      rw [cancel_reminder_of_absent st uid rid hl]
      exact h
    | some rem =>
      by_cases hu : rem.user_id = uid
      · rw [cancel_reminder_of_ok st uid rid rem hl hu]
        exact inv_cancel_state st rid h
      · rw [cancel_reminder_of_wrong_user st uid rid rem hl hu]
        exact h
  | delete uid rid =>
    show Inv ((delete_reminder st uid rid).toOption.getD st)
    cases hl : load_reminder st.reminders rid with
    | none =>
      rw [delete_reminder_of_absent st uid rid hl]
      exact h
    | some rem =>
      by_cases hu : rem.user_id = uid
      · rw [delete_reminder_of_ok st uid rid rem hl hu]
        exact inv_delete_state st rid h
      · rw [delete_reminder_of_wrong_user st uid rid rem hl hu]
        exact h
  | fire rid =>
    show Inv (if st.timers.any (fun p => p.1 == jobId rid)
      then fireStep defaultEnv st rid else st)
    by_cases hg : st.timers.any (fun p => p.1 == jobId rid) = true
    · rw [if_pos (by simp [hg])]
      exact inv_fireStep defaultEnv st rid h
    · rw [if_neg (by simp [hg])]
      exact h

theorem inv_init (users : List User) : Inv (initState users) := by
  constructor <;> simp [initState]

theorem inv_foldl (ops : List Op) :
    ∀ st : AppState, Inv st → Inv (ops.foldl step st) := by
  induction ops with
  | nil =>
    intro st h
    exact h
  | cons op ops ih =>
    intro st h
    exact ih (step st op) (inv_step st op h)

theorem inv_states (ops : List Op) :
    ∀ st : AppState, Inv st → ∀ st' ∈ states st ops, Inv st' := by
  induction ops with
  | nil =>
    intro st h st' hst'
    simp only [states, List.mem_singleton] at hst'
    subst hst'
    exact h
  | cons op ops ih =>
    intro st h st' hst'
    simp only [states, List.mem_cons] at hst'
    rcases hst' with rfl | hst'
    · exact h
    · exact ih (step st op) (inv_step st op h) st' hst'

/-! ### Status changes along one step -/

theorem changeOK_of_same_reminders (rel : String → String → Bool)
    {pre post : AppState} (h : Inv pre) (he : post.reminders = pre.reminders) :
    changeOK rel pre post = true := by
  rw [changeOK, List.all_eq_true]
  intro r hr
  rw [he, statusAfter, load_of_mem_nodup hr h.nodupIds]
  simp

theorem step_changeOK (st : AppState) (op : Op) (h : Inv st) :
    changeOK codeAllowed st (step st op) = true := by
  cases op with
  | create uid rid t b w n rec rep c tg =>
    show changeOK codeAllowed st (create_reminder st uid rid t b w n rec rep c tg) = true
    cases hl : load_reminder st.reminders rid with
    | some rem =>
      rw [create_reminder_of_dup st uid rid t b w n rec rep c tg rem hl]
      exact changeOK_of_same_reminders _ h rfl
    | none =>
      rw [create_reminder_of_fresh st uid rid t b w n rec rep c tg hl]
      rw [changeOK, List.all_eq_true]
      intro r hr
      have hload : load_reminder (save_reminder_db st.reminders rid uid t b w n
          rec rep c tg) r.id = some r := by
        have h1 : load_reminder st.reminders r.id = some r :=
          load_of_mem_nodup hr h.nodupIds
        unfold load_reminder at h1 ⊢
        unfold save_reminder_db
        rw [List.find?_append, h1]
        rfl
      rw [statusAfter]
      show (match (load_reminder (save_reminder_db st.reminders rid uid t b w n
        rec rep c tg) r.id).map Reminder.status with
        | none => true
        | some s => r.status == s || codeAllowed r.status s) = true
      rw [hload]
      simp
  | snooze uid rid m now =>
    show changeOK codeAllowed st ((snooze_reminder st uid rid m now).toOption.getD st) = true
    cases hl : load_reminder st.reminders rid with
    | none =>
      rw [snooze_reminder_of_absent st uid rid m now hl]
      exact changeOK_of_same_reminders _ h rfl
    | some rem =>
      by_cases hu : rem.user_id = uid
      · rw [snooze_reminder_of_ok st uid rid m now rem hl hu]
        rw [changeOK, List.all_eq_true]
        intro r hr
        rw [statusAfter]
        show (match (load_reminder (update_snooze st.reminders rid (now + m * 60))
          r.id).map Reminder.status with
          | none => true
          | some s => r.status == s || codeAllowed r.status s) = true
        rw [load_update_snooze, load_of_mem_nodup hr h.nodupIds]
        by_cases he : r.id = rid
        · rw [Option.map_some', Option.map_some', snoozeRow_of_eq _ he]
          simp [codeAllowed]
        · rw [Option.map_some', Option.map_some', snoozeRow_of_ne _ he]
          simp
      · rw [snooze_reminder_of_wrong_user st uid rid m now rem hl hu]
        exact changeOK_of_same_reminders _ h rfl
  | cancel uid rid =>
    show changeOK codeAllowed st ((cancel_reminder st uid rid).toOption.getD st) = true
    cases hl : load_reminder st.reminders rid with
    | none =>
      rw [cancel_reminder_of_absent st uid rid hl]
      exact changeOK_of_same_reminders _ h rfl
    | some rem =>
      by_cases hu : rem.user_id = uid
      · rw [cancel_reminder_of_ok st uid rid rem hl hu]
        rw [changeOK, List.all_eq_true]
        intro r hr
        rw [statusAfter]
        show (match (load_reminder (update_reminder_status st.reminders rid
          "cancelled") r.id).map Reminder.status with
          | none => true
          | some s => r.status == s || codeAllowed r.status s) = true
        rw [load_update_reminder_status, load_of_mem_nodup hr h.nodupIds]
        by_cases he : r.id = rid
        · rw [Option.map_some', Option.map_some', setStatusRow_of_eq _ he]
          simp [codeAllowed]
        · rw [Option.map_some', Option.map_some', setStatusRow_of_ne _ he]
          simp
      · rw [cancel_reminder_of_wrong_user st uid rid rem hl hu]
        exact changeOK_of_same_reminders _ h rfl
  | delete uid rid =>
    show changeOK codeAllowed st ((delete_reminder st uid rid).toOption.getD st) = true
    cases hl : load_reminder st.reminders rid with
    | none =>
      rw [delete_reminder_of_absent st uid rid hl]
      exact changeOK_of_same_reminders _ h rfl
    | some rem =>
      by_cases hu : rem.user_id = uid
      · rw [delete_reminder_of_ok st uid rid rem hl hu]
        rw [changeOK, List.all_eq_true]
        intro r hr
        rw [statusAfter]
        show (match (load_reminder (st.reminders.filter (fun r => r.id != rid))
          r.id).map Reminder.status with
          | none => true
          | some s => r.status == s || codeAllowed r.status s) = true
        by_cases he : r.id = rid
        · have hnone : load_reminder (st.reminders.filter (fun r => r.id != rid))
              r.id = none := by
            apply List.find?_eq_none.mpr
            intro x hx
            have hxne := (List.mem_filter.mp hx).2
            rw [bne_iff_ne] at hxne
            simp [he, hxne]
          rw [hnone]
          rfl
        · have hmemf : r ∈ st.reminders.filter (fun r => r.id != rid) :=
            List.mem_filter.mpr ⟨hr, by simp [bne_iff_ne, he]⟩
          have hnd : ((st.reminders.filter (fun r => r.id != rid)).map
              Reminder.id).Nodup :=
            ((List.filter_sublist st.reminders).map Reminder.id).nodup h.nodupIds
          rw [load_of_mem_nodup hmemf hnd]
          simp
      · rw [delete_reminder_of_wrong_user st uid rid rem hl hu]
        exact changeOK_of_same_reminders _ h rfl
  | fire rid =>
    show changeOK codeAllowed st (if st.timers.any (fun p => p.1 == jobId rid)
      then fireStep defaultEnv st rid else st) = true
    by_cases hg : st.timers.any (fun p => p.1 == jobId rid) = true
    · rw [if_pos (by simp [hg])]
      unfold fireStep
      set st1 := { st with timers := remove_job st.timers (jobId rid) } with hst1
      have hlsame : st1.reminders = st.reminders := rfl
      cases hl : load_reminder st1.reminders rid with
      | none =>
        rw [notifier_notify_of_absent defaultEnv st1 rid hl]
        exact changeOK_of_same_reminders _ h rfl
      | some rem =>
        obtain ⟨hmem, hid⟩ := load_eq_some_mem hl
        have hsched : rem.status = "scheduled" := by
          rcases List.any_eq_true.mp hg with ⟨p, hp, hpk⟩
          rcases h.timerScheduled p hp with ⟨r0, hr0, hkey, hs0⟩
          have hpk' : p.1 = jobId rid := by simpa using hpk
          have hr0id : r0.id = rid := jobId_inj (hkey.trans hpk')
          have : load_reminder st.reminders rid = some r0 :=
            hr0id ▸ load_of_mem_nodup hr0 h.nodupIds
          have hrr : rem = r0 := by
            rw [hlsame] at hl
            exact Option.some_inj.mp (hl.symm.trans this)
          rw [hrr]
          exact hs0
        cases hrec : intTruthy rem.repeat_interval with
        | false =>
          rw [notifier_notify_of_norec defaultEnv st1 rid rem hl hrec]
          rw [changeOK, List.all_eq_true]
          intro r hr
          rw [statusAfter]
          show (match (load_reminder (update_reminder_status st1.reminders rid
            "fired") r.id).map Reminder.status with
            | none => true
            | some s => r.status == s || codeAllowed r.status s) = true
          rw [load_update_reminder_status, hlsame, load_of_mem_nodup hr h.nodupIds]
          by_cases he : r.id = rid
          · have hreq : r = rem := by
              have h1 : load_reminder st.reminders rid = some r :=
                he ▸ load_of_mem_nodup hr h.nodupIds
              rw [hlsame] at hl
              exact Option.some_inj.mp (h1.symm.trans hl)
            rw [Option.map_some', Option.map_some', setStatusRow_of_eq _ he]
            have : r.status = "scheduled" := hreq ▸ hsched
            simp [codeAllowed, this]
          · rw [Option.map_some', Option.map_some', setStatusRow_of_ne _ he]
            simp
        | true =>
          rw [notifier_notify_of_rec defaultEnv st1 rid rem hl hrec]
          rw [changeOK, List.all_eq_true]
          intro r hr
          rw [statusAfter]
          show (match (load_reminder (update_rearm (update_reminder_status
            st1.reminders rid "fired") rid
            (rem.when_ts + rem.repeat_interval.getD 0)) r.id).map
            Reminder.status with
            | none => true
            | some s => r.status == s || codeAllowed r.status s) = true
          rw [load_update_rearm, load_update_reminder_status, hlsame,
            load_of_mem_nodup hr h.nodupIds]
          by_cases he : r.id = rid
          · have hse : (setStatusRow rid "fired" r).id = rid := by
              rw [setStatusRow_id]
              exact he
            rw [Option.map_some', Option.map_some', Option.map_some',
              rearmRow_of_eq _ hse]
            simp [codeAllowed]
          · have hse : (setStatusRow rid "fired" r).id ≠ rid := by
              rw [setStatusRow_id]
              exact he
            rw [Option.map_some', Option.map_some', Option.map_some',
              rearmRow_of_ne _ hse, setStatusRow_of_ne _ he]
            simp
    · rw [if_neg (by simp [hg])]
      exact changeOK_of_same_reminders _ h rfl

theorem adjacentOK_states (rel : String → String → Bool)
    (hstep : ∀ st op, Inv st → changeOK rel st (step st op) = true) :
    ∀ ops : List Op, ∀ st : AppState, Inv st →
      adjacentOK (changeOK rel) (states st ops) = true := by
  intro ops
  induction ops with
  | nil =>
    intro st _
    rfl
  | cons op ops ih =>
    intro st hst
    have h1 := hstep st op hst
    have h2 := ih (step st op) (inv_step st op hst)
    cases ops with
    | nil =>
      show (changeOK rel st (step st op) && adjacentOK (changeOK rel)
        [step st op]) = true
      rw [h1]
      rfl
    | cons op2 ops2 =>
      show (changeOK rel st (step st op) && adjacentOK (changeOK rel)
        (states (step st op) (op2 :: ops2))) = true
      rw [h1, h2]
      rfl

/-! ### Idempotence helpers -/

theorem remove_job_idem (tms : List (String × Int)) (jid : String) :
    remove_job (remove_job tms jid) jid = remove_job tms jid := by
  simp only [remove_job, List.filter_filter]
  apply List.filter_congr
  intro p _
  cases h : p.1 != jid <;> simp [h]

theorem schedule_job_twice (tms : List (String × Int)) (rid : String) (w w' : Int) :
    schedule_job (schedule_job tms rid w) rid w' = schedule_job tms rid w' := by
  simp only [schedule_job, remove_job, List.filter_append, List.filter_filter]
  have h1 : List.filter (fun p => (p.1 != jobId rid) && (p.1 != jobId rid)) tms =
      List.filter (fun p => p.1 != jobId rid) tms := by
    apply List.filter_congr
    intro p _
    cases h : p.1 != jobId rid <;> simp [h]
  have h2 : List.filter (fun p => p.1 != jobId rid) [(jobId rid, w)] =
      ([] : List (String × Int)) := by simp
  rw [h1]
  simp

theorem update_status_idem (db : List Reminder) (rid s : String) :
    update_reminder_status (update_reminder_status db rid s) rid s =
      update_reminder_status db rid s := by
  unfold update_reminder_status
  rw [List.map_map]
  apply List.map_congr_left
  intro r _
  show setStatusRow rid s (setStatusRow rid s r) = setStatusRow rid s r
  by_cases he : r.id = rid
  · rw [setStatusRow_of_eq _ he, setStatusRow_of_eq _ (show ({ r with status := s } : Reminder).id = rid from he)]
  · rw [setStatusRow_of_ne _ he, setStatusRow_of_ne _ he]

/-! ### The claims -/

/-- Claim C10: `set_status(id, status)` (update_reminder_status) updates only
the status field of the row with that id: all other fields of that row, and
every other row, are unchanged.  Stated pointwise over the whole table. -/
theorem C10_set_status_frame (db : List Reminder) (rid s : String) :
    List.Forall₂ (fun r r' =>
      r'.id = r.id ∧ r'.user_id = r.user_id ∧ r'.title = r.title ∧
      r'.body = r.body ∧ r'.when_ts = r.when_ts ∧ r'.created_at = r.created_at ∧
      r'.snooze_until = r.snooze_until ∧ r'.recurrence = r.recurrence ∧
      r'.repeat_interval = r.repeat_interval ∧ r'.category = r.category ∧
      r'.tags = r.tags ∧
      r'.status = (if r.id = rid then s else r.status))
      db (update_reminder_status db rid s) := by
  unfold update_reminder_status
  induction db with
  | nil => exact List.Forall₂.nil
  | cons a l ih =>
    refine List.Forall₂.cons ?_ ih
    by_cases he : a.id = rid
    · simp [setStatusRow, he]
    · simp [setStatusRow, he]

/-- Claim C6: `schedule(reminder_id, at_time)` removes any pending timer for
the id and installs one at the new time, leaving exactly one; scheduling
twice leaves exactly one (the second call wins); other ids are untouched;
and along every reachable trace the job ids in the timer map are
duplicate-free, so no two timers for one id are ever concurrently pending. -/
theorem C6_schedule_exactly_one :
    (∀ (tms : List (String × Int)) (rid : String) (w : Int),
      (schedule_job tms rid w).filter (fun p => p.1 == jobId rid) =
        [(jobId rid, w)]) ∧
    (∀ (tms : List (String × Int)) (rid : String) (w w' : Int),
      schedule_job (schedule_job tms rid w) rid w' = schedule_job tms rid w') ∧
    (∀ (tms : List (String × Int)) (rid : String) (w : Int) (jid : String),
      jid ≠ jobId rid →
      (schedule_job tms rid w).filter (fun p => p.1 == jid) =
        tms.filter (fun p => p.1 == jid)) ∧
    (∀ (users : List User) (ops : List Op),
      (((runOps users ops).timers.map Prod.fst)).Nodup) := by
  refine ⟨schedule_job_filter_self, schedule_job_twice, ?_, ?_⟩
  · intro tms rid w jid h
    exact schedule_job_filter_other tms rid w jid h
  · intro users ops
    exact (inv_foldl ops (initState users) (inv_init users)).nodupTimers

/-- Claim C6 witness: concrete instantiation of the other-id frame part. -/
theorem C6_schedule_exactly_one_witness :
    ("job_b" ≠ jobId "a") ∧
    (schedule_job [("job_b", (5 : Int))] "a" 9).filter
      (fun p => p.1 == "job_b") = [("job_b", (5 : Int))] :=
  ⟨by decide, C6_schedule_exactly_one.2.2.1 [("job_b", (5 : Int))] "a" 9 "job_b"
    (by decide)⟩

/-- Claim C4: if the reminder id is absent at fire time the notifier stops
silently: no exception, the store and timers are unchanged, no email is
attempted, and nothing is re-armed. -/
theorem C4_notifier_absent (env : SMTPEnv) (st : AppState) (rid : String)
    (h : load_reminder st.reminders rid = none) :
    notifier_notify env st rid = (st, []) :=
  notifier_notify_of_absent env st rid h

/-- Claim C4 witness: a concrete store without the fired id. -/
theorem C4_notifier_absent_witness :
    load_reminder (AppState.mk [{ id := 1, email := "a@x" }] [] []).reminders
      "r1" = none ∧
    notifier_notify { smtpHost := none, deliverOk := false }
      (AppState.mk [{ id := 1, email := "a@x" }] [] []) "r1" =
      (AppState.mk [{ id := 1, email := "a@x" }] [] [], []) :=
  ⟨rfl, C4_notifier_absent { smtpHost := none, deliverOk := false }
    (AppState.mk [{ id := 1, email := "a@x" }] [] []) "r1" rfl⟩

/-- Claim C5: for a present reminder the notifier marks it 'fired'
unconditionally; the delivery outcome (unconfigured SMTP, failed SMTP
transaction) has no effect on the resulting store, does not roll the status
back, and does not prevent re-arming: the whole result is identical for any
two SMTP environments, the composed email is always attempted, and the final
record is 'fired' (or re-armed 'scheduled' when recurring) regardless. -/
theorem C5_delivery_failure_harmless (env env' : SMTPEnv) (st : AppState)
    (rid : String) (rem : Reminder)
    (h : load_reminder st.reminders rid = some rem) :
    notifier_notify env st rid = notifier_notify env' st rid ∧
    (notifier_notify env st rid).2 = emailsOf st.users rem ∧
    (intTruthy rem.repeat_interval = false →
      load_reminder (notifier_notify env st rid).1.reminders rid =
        some { rem with status := "fired" } ∧
      (notifier_notify env st rid).1.timers = st.timers) ∧
    (intTruthy rem.repeat_interval = true →
      load_reminder (notifier_notify env st rid).1.reminders rid =
        some { rem with
               when_ts := rem.when_ts + rem.repeat_interval.getD 0,
               status := "scheduled" } ∧
      (notifier_notify env st rid).1.timers.filter
          (fun p => p.1 == jobId rid) =
        [(jobId rid, rem.when_ts + rem.repeat_interval.getD 0)]) := by
  obtain ⟨hmem, hid⟩ := load_eq_some_mem h
  refine ⟨rfl, ?_, ?_, ?_⟩
  · cases hrec : intTruthy rem.repeat_interval with
    | false => rw [notifier_notify_of_norec env st rid rem h hrec]
    | true => rw [notifier_notify_of_rec env st rid rem h hrec]
  · intro hrec
    rw [notifier_notify_of_norec env st rid rem h hrec]
    refine ⟨?_, rfl⟩
    show load_reminder (update_reminder_status st.reminders rid "fired") rid =
      some { rem with status := "fired" }
    rw [load_update_reminder_status, h, Option.map_some', setStatusRow_of_eq _ hid]
  · intro hrec
    rw [notifier_notify_of_rec env st rid rem h hrec]
    constructor
    · show load_reminder (update_rearm (update_reminder_status st.reminders rid
        "fired") rid (rem.when_ts + rem.repeat_interval.getD 0)) rid =
        some { rem with
               when_ts := rem.when_ts + rem.repeat_interval.getD 0,
               status := "scheduled" }
      rw [load_update_rearm, load_update_reminder_status, h, Option.map_some',
        Option.map_some', setStatusRow_of_eq _ hid]
      have hse : ({ rem with status := "fired" } : Reminder).id = rid := hid
      rw [rearmRow_of_eq _ hse]
    · exact schedule_job_filter_self st.timers rid _

/-- A concrete recurring reminder row used by concrete instantiations. -/
def wRemRec : Reminder :=
  { id := "r1", user_id := 1, title := "t", body := "b", when_ts := 100,
    created_at := 0, status := "scheduled", snooze_until := none,
    recurrence := none, repeat_interval := some 10, category := none,
    tags := none }

/-- A concrete non-recurring scheduled reminder row. -/
def wRemOnce : Reminder :=
  { id := "r1", user_id := 1, title := "t", body := "b", when_ts := 100,
    created_at := 0, status := "scheduled", snooze_until := none,
    recurrence := none, repeat_interval := none, category := none,
    tags := none }

/-- Concrete backend state holding the recurring row and its timer. -/
def wStateRec : AppState :=
  AppState.mk [{ id := 1, email := "a@x" }] [wRemRec] [("job_r1", 100)]

/-- Concrete backend state holding the non-recurring row and its timer. -/
def wStateOnce : AppState :=
  AppState.mk [{ id := 1, email := "a@x" }] [wRemOnce] [("job_r1", 100)]

/-- Claim C5 witness: a concrete recurring reminder, one environment without
SMTP and one with a working SMTP host. -/
theorem C5_delivery_failure_harmless_witness :
    load_reminder wStateRec.reminders "r1" = some wRemRec ∧
    notifier_notify { smtpHost := none, deliverOk := false } wStateRec "r1" =
      notifier_notify { smtpHost := some "smtp.example", deliverOk := true }
        wStateRec "r1" :=
  ⟨rfl,
    (C5_delivery_failure_harmless { smtpHost := none, deliverOk := false }
      { smtpHost := some "smtp.example", deliverOk := true } wStateRec "r1"
      wRemRec rfl).1⟩

/-- Claim C7: cancelling a scheduled reminder owned by the caller is
idempotent: the first call succeeds, a second call succeeds and changes
nothing further, the status ends 'cancelled', and no timer for the id
remains pending. -/
theorem C7_cancel_idempotent (st : AppState) (uid : Nat) (rid : String)
    (rem : Reminder) (hl : load_reminder st.reminders rid = some rem)
    (hu : rem.user_id = uid) (_hs : rem.status = "scheduled") :
    ∃ st1, cancel_reminder st uid rid = .ok st1 ∧
      cancel_reminder st1 uid rid = .ok st1 ∧
      load_reminder st1.reminders rid = some { rem with status := "cancelled" } ∧
      st1.timers.filter (fun p => p.1 == jobId rid) = [] := by
  obtain ⟨hmem, hid⟩ := load_eq_some_mem hl
  refine ⟨_, cancel_reminder_of_ok st uid rid rem hl hu, ?_, ?_, ?_⟩
  · have hl1 : load_reminder (update_reminder_status st.reminders rid
        "cancelled") rid = some { rem with status := "cancelled" } := by
      rw [load_update_reminder_status, hl, Option.map_some',
        setStatusRow_of_eq _ hid]
    have hok := cancel_reminder_of_ok
      { st with reminders := update_reminder_status st.reminders rid "cancelled",
                timers := remove_job st.timers (jobId rid) }
      uid rid { rem with status := "cancelled" } hl1 hu
    rw [hok]
    show Except.ok _ = Except.ok _
    congr 1
    show ({ st with
      reminders := update_reminder_status (update_reminder_status st.reminders
        rid "cancelled") rid "cancelled",
      timers := remove_job (remove_job st.timers (jobId rid)) (jobId rid) } :
        AppState) = _
    rw [update_status_idem, remove_job_idem]
  · show load_reminder (update_reminder_status st.reminders rid "cancelled")
      rid = some { rem with status := "cancelled" }
    rw [load_update_reminder_status, hl, Option.map_some',
      setStatusRow_of_eq _ hid]
  · exact remove_job_filter st.timers (jobId rid)

/-- Claim C7 witness: a concrete scheduled reminder cancelled twice. -/
theorem C7_cancel_idempotent_witness :
    load_reminder wStateOnce.reminders "r1" = some wRemOnce ∧
    ∃ st1, cancel_reminder wStateOnce 1 "r1" = .ok st1 ∧
      cancel_reminder st1 1 "r1" = .ok st1 ∧
      load_reminder st1.reminders "r1" =
        some { wRemOnce with status := "cancelled" } ∧
      st1.timers.filter (fun p => p.1 == jobId "r1") = [] :=
  ⟨rfl, C7_cancel_idempotent wStateOnce 1 "r1" wRemOnce rfl rfl rfl⟩

/-- Claim C8: snoozing a scheduled reminder owned by the caller sets its
target time (and snooze_until) to now + minutes*60, keeps status
'scheduled', and leaves exactly one pending timer at the new time while
removing the previously pending one; timers of other ids are untouched. -/
theorem C8_snooze (st : AppState) (uid : Nat) (rid : String) (rem : Reminder)
    (m now : Int) (hl : load_reminder st.reminders rid = some rem)
    (hu : rem.user_id = uid) (_hs : rem.status = "scheduled") :
    ∃ st1, snooze_reminder st uid rid m now = .ok st1 ∧
      load_reminder st1.reminders rid =
        some { rem with
               snooze_until := some (now + m * 60),
               when_ts := now + m * 60, status := "scheduled" } ∧
      st1.timers.filter (fun p => p.1 == jobId rid) =
        [(jobId rid, now + m * 60)] ∧
      (∀ jid, jid ≠ jobId rid →
        st1.timers.filter (fun p => p.1 == jid) =
          st.timers.filter (fun p => p.1 == jid)) := by
  obtain ⟨hmem, hid⟩ := load_eq_some_mem hl
  refine ⟨_, snooze_reminder_of_ok st uid rid m now rem hl hu, ?_, ?_, ?_⟩
  · show load_reminder (update_snooze st.reminders rid (now + m * 60)) rid =
      some { rem with
             snooze_until := some (now + m * 60),
             when_ts := now + m * 60, status := "scheduled" }
    rw [load_update_snooze, hl, Option.map_some', snoozeRow_of_eq _ hid]
  · exact schedule_job_filter_self st.timers rid (now + m * 60)
  · intro jid hjid
    exact schedule_job_filter_other st.timers rid (now + m * 60) jid hjid

/-- Claim C8 witness: a concrete scheduled reminder snoozed 5 minutes at
time 1000. -/
theorem C8_snooze_witness :
    load_reminder wStateOnce.reminders "r1" = some wRemOnce ∧
    ∃ st1, snooze_reminder wStateOnce 1 "r1" 5 1000 = .ok st1 ∧
      load_reminder st1.reminders "r1" =
        some { wRemOnce with
               snooze_until := some 1300, when_ts := 1300,
               status := "scheduled" } ∧
      st1.timers.filter (fun p => p.1 == jobId "r1") = [(jobId "r1", 1300)] ∧
      (∀ jid, jid ≠ jobId "r1" →
        st1.timers.filter (fun p => p.1 == jid) =
          wStateOnce.timers.filter (fun p => p.1 == jid)) :=
  ⟨rfl, C8_snooze wStateOnce 1 "r1" wRemOnce 5 1000 rfl rfl rfl⟩

/-- Claim C9: listing returns only the caller's reminders (each returned row
comes from a store row owned by the caller), and a snooze, cancel or delete
by a non-owner fails with the client error and leaves the state unchanged
(the check happens before any mutation). -/
theorem C9_ownership (st : AppState) (uid : Nat) (rid : String) (m now : Int)
    (rem : Reminder) (hl : load_reminder st.reminders rid = some rem)
    (hu : rem.user_id ≠ uid) :
    (∀ (uid' : Nat) (x : ReminderOut), x ∈ get_reminders st uid' →
      ∃ r ∈ st.reminders, r.user_id = uid' ∧ x = remOut r) ∧
    snooze_reminder st uid rid m now = .error "Not found" ∧
    cancel_reminder st uid rid = .error "Reminder not found" ∧
    delete_reminder st uid rid = .error "Reminder not found" ∧
    step st (.snooze uid rid m now) = st ∧
    step st (.cancel uid rid) = st ∧
    step st (.delete uid rid) = st := by
  refine ⟨?_, snooze_reminder_of_wrong_user st uid rid m now rem hl hu,
    cancel_reminder_of_wrong_user st uid rid rem hl hu,
    delete_reminder_of_wrong_user st uid rid rem hl hu, ?_, ?_, ?_⟩
  · intro uid' x hx
    rcases List.mem_map.mp hx with ⟨r, hr, hxr⟩
    have hmf := List.mem_filter.mp hr
    refine ⟨r, hmf.1, ?_, hxr.symm⟩
    have := hmf.2
    simpa using this
  · show (snooze_reminder st uid rid m now).toOption.getD st = st
    rw [snooze_reminder_of_wrong_user st uid rid m now rem hl hu]
    rfl
  · show (cancel_reminder st uid rid).toOption.getD st = st
    rw [cancel_reminder_of_wrong_user st uid rid rem hl hu]
    rfl
  · show (delete_reminder st uid rid).toOption.getD st = st
    rw [delete_reminder_of_wrong_user st uid rid rem hl hu]
    rfl

/-- Concrete two-user state: user 2 owns reminder r1. -/
def wStateTwoUsers : AppState :=
  AppState.mk [{ id := 1, email := "a@x" }, { id := 2, email := "b@x" }]
    [{ id := "r1", user_id := 2, title := "t", body := "b", when_ts := 100,
       created_at := 0, status := "scheduled", snooze_until := none,
       recurrence := none, repeat_interval := none, category := none,
       tags := none }] [("job_r1", 100)]

/-- Claim C9 witness: user 1 snoozing/cancelling/deleting user 2's reminder. -/
theorem C9_ownership_witness :
    load_reminder wStateTwoUsers.reminders "r1" =
      some { id := "r1", user_id := 2, title := "t", body := "b",
             when_ts := 100, created_at := 0, status := "scheduled",
             snooze_until := none, recurrence := none, repeat_interval := none,
             category := none, tags := none } ∧
    (2 : Nat) ≠ 1 ∧
    snooze_reminder wStateTwoUsers 1 "r1" 5 1000 = .error "Not found" ∧
    step wStateTwoUsers (.cancel 1 "r1") = wStateTwoUsers :=
  have h := C9_ownership wStateTwoUsers 1 "r1" 5 1000
    { id := "r1", user_id := 2, title := "t", body := "b", when_ts := 100,
      created_at := 0, status := "scheduled", snooze_until := none,
      recurrence := none, repeat_interval := none, category := none,
      tags := none } rfl (by decide)
  ⟨rfl, by decide, h.2.1, h.2.2.2.2.2.1⟩

/-- One firing of a recurring reminder: the row is persisted back to
'scheduled' with when_ts advanced by the interval, and exactly one timer
for the id is pending, at the new time. -/
theorem fireStep_rec (env : SMTPEnv) (st : AppState) (rid : String)
    (rem : Reminder) (I : Int) (hl : load_reminder st.reminders rid = some rem)
    (hI : rem.repeat_interval = some I) (hIne : I ≠ 0) :
    load_reminder (fireStep env st rid).reminders rid =
      some { rem with when_ts := rem.when_ts + I, status := "scheduled" } ∧
    (fireStep env st rid).timers.filter (fun p => p.1 == jobId rid) =
      [(jobId rid, rem.when_ts + I)] := by
  obtain ⟨hmem, hid⟩ := load_eq_some_mem hl
  have hrec : intTruthy rem.repeat_interval = true := by
    rw [hI]
    simp [intTruthy, hIne]
  unfold fireStep
  set st1 := { st with timers := remove_job st.timers (jobId rid) } with hst1
  have hl1 : load_reminder st1.reminders rid = some rem := hl
  rw [notifier_notify_of_rec env st1 rid rem hl1 hrec]
  have hnext : rem.when_ts + rem.repeat_interval.getD 0 = rem.when_ts + I := by
    rw [hI]
    rfl
  constructor
  · show load_reminder (update_rearm (update_reminder_status st1.reminders rid
      "fired") rid (rem.when_ts + rem.repeat_interval.getD 0)) rid =
      some { rem with when_ts := rem.when_ts + I, status := "scheduled" }
    rw [load_update_rearm, load_update_reminder_status, hl1, Option.map_some',
      Option.map_some', setStatusRow_of_eq _ hid]
    have hse : ({ rem with status := "fired" } : Reminder).id = rid := hid
    rw [rearmRow_of_eq _ hse, hnext]
  · show (schedule_job st1.timers rid
      (rem.when_ts + rem.repeat_interval.getD 0)).filter
        (fun p => p.1 == jobId rid) = [(jobId rid, rem.when_ts + I)]
    rw [schedule_job_filter_self, hnext]

/-- Iterated firing of a recurring reminder. -/
theorem fireN_load (env : SMTPEnv) (st : AppState) (rid : String)
    (rem : Reminder) (I : Int) (hl : load_reminder st.reminders rid = some rem)
    (hI : rem.repeat_interval = some I) (hIne : I ≠ 0) :
    ∀ n : Nat,
      load_reminder (fireN env st rid (n+1)).reminders rid =
        some { rem with
               when_ts := rem.when_ts + (n+1 : Nat) * I,
               status := "scheduled" } ∧
      (fireN env st rid (n+1)).timers.filter (fun p => p.1 == jobId rid) =
        [(jobId rid, rem.when_ts + (n+1 : Nat) * I)] := by
  intro n
  induction n with
  | zero =>
    have h := fireStep_rec env st rid rem I hl hI hIne
    show load_reminder (fireStep env st rid).reminders rid = _ ∧
      (fireStep env st rid).timers.filter (fun p => p.1 == jobId rid) = _
    simpa using h
  | succ k ih =>
    have hstep := fireStep_rec env (fireN env st rid (k+1)) rid
      { rem with
        when_ts := rem.when_ts + (k+1 : Nat) * I,
        status := "scheduled" } I ih.1 (by simp [hI]) hIne
    have harith : rem.when_ts + ((k+1 : Nat) : Int) * I + I =
        rem.when_ts + ((k+1+1 : Nat) : Int) * I := by
      push_cast
      ring
    constructor
    · show load_reminder (fireStep env (fireN env st rid (k+1)) rid).reminders
        rid = _
      rw [hstep.1]
      simp only [harith]
    · show (fireStep env (fireN env st rid (k+1)) rid).timers.filter
        (fun p => p.1 == jobId rid) = _
      rw [hstep.2]
      simp only [harith]

/-- The reminder's stored target time after n firings (0 if the row is
missing). -/
def targetTime (env : SMTPEnv) (st : AppState) (rid : String) (n : Nat) : Int :=
  ((load_reminder (fireN env st rid n).reminders rid).map Reminder.when_ts).getD 0

/-- Claim C1: firing a reminder with positive repeat interval I persists it
back to 'scheduled' with when advanced by I and arms exactly one new timer
at the new time; iterating N times yields target times spaced exactly I
apart and strictly increasing. -/
theorem C1_recurring_rearm (env : SMTPEnv) (st : AppState) (rid : String)
    (rem : Reminder) (I : Int) (hl : load_reminder st.reminders rid = some rem)
    (hI : rem.repeat_interval = some I) (hIpos : 0 < I) :
    (∀ n : Nat,
      load_reminder (fireN env st rid (n+1)).reminders rid =
        some { rem with
               when_ts := rem.when_ts + (n+1 : Nat) * I,
               status := "scheduled" } ∧
      (fireN env st rid (n+1)).timers.filter (fun p => p.1 == jobId rid) =
        [(jobId rid, rem.when_ts + (n+1 : Nat) * I)]) ∧
    (∀ n : Nat, targetTime env st rid (n+1) = targetTime env st rid n + I ∧
      targetTime env st rid n < targetTime env st rid (n+1)) := by
  have hIne : I ≠ 0 := ne_of_gt hIpos
  have hmain := fireN_load env st rid rem I hl hI hIne
  refine ⟨hmain, ?_⟩
  have ht : ∀ m : Nat, targetTime env st rid m = rem.when_ts + (m : Nat) * I := by
    intro m
    cases m with
    | zero =>
      unfold targetTime
      show ((load_reminder st.reminders rid).map Reminder.when_ts).getD 0 = _
      rw [hl]
      simp
    | succ k =>
      unfold targetTime
      rw [(hmain k).1]
      simp
  intro n
  rw [ht (n+1), ht n]
  constructor
  · push_cast
    ring
  · have hn : (0 : Int) ≤ (n : Int) := Int.natCast_nonneg n
    push_cast
    nlinarith [hIpos, hn]

/-- Claim C1 witness: the concrete recurring reminder fired twice. -/
theorem C1_recurring_rearm_witness :
    load_reminder wStateRec.reminders "r1" = some wRemRec ∧
    wRemRec.repeat_interval = some 10 ∧ (0 : Int) < 10 ∧
    targetTime defaultEnv wStateRec "r1" 1 =
      targetTime defaultEnv wStateRec "r1" 0 + 10 ∧
    targetTime defaultEnv wStateRec "r1" 0 <
      targetTime defaultEnv wStateRec "r1" 1 :=
  ⟨rfl, rfl, by decide,
    ((C1_recurring_rearm defaultEnv wStateRec "r1" wRemRec 10 rfl rfl
      (by decide)).2 0).1,
    ((C1_recurring_rearm defaultEnv wStateRec "r1" wRemRec 10 rfl rfl
      (by decide)).2 0).2⟩

/-- Claim C2 as stated by the spec: along every trace of API and scheduler
events from a fresh backend, every status change of every reminder follows
one of the enumerated transitions (scheduled to fired, scheduled to
cancelled, fired to scheduled). -/
def specTransitionDiscipline : Prop :=
  ∀ (users : List User) (ops : List Op),
    adjacentOK (changeOK specAllowed) (states (initState users) ops) = true

/-- Claim C2 counterexample: snooze_reminder never checks the current
status, so the trace create, cancel, snooze performs the status change
cancelled to scheduled, which is outside the enumerated transitions. -/
theorem C2_counterexample : ¬ specTransitionDiscipline := by
  intro hcl
  have h := hcl [{ id := 1, email := "a@x" }]
    [.create 1 "r1" "t" "b" 1060 1000 none none none none,
     .cancel 1 "r1", .snooze 1 "r1" 5 2000]
  revert h
  decide

/-- Claim C2 (amended): along every trace every reachable reminder's status
is one of 'scheduled', 'fired', 'cancelled', and every status change lands
on 'scheduled' (create, snooze or recurrence re-arm, where snooze does not
check the prior status and so also revives fired and cancelled reminders),
or on 'cancelled' (cancel, which likewise does not check the prior status),
or is the transition scheduled to fired performed by the notifier (fired is
only ever entered from scheduled, because only scheduled reminders have a
pending timer). -/
theorem C2_amended (users : List User) (ops : List Op) :
    (∀ st ∈ states (initState users) ops, ∀ r ∈ st.reminders,
      goodStatus r.status) ∧
    adjacentOK (changeOK codeAllowed) (states (initState users) ops) = true := by
  constructor
  · intro st hst r hr
    exact (inv_states ops (initState users) (inv_init users) st hst).statusOk r hr
  · exact adjacentOK_states codeAllowed step_changeOK ops (initState users)
      (inv_init users)

/-- Claim C2 amended witness: the create, cancel, snooze trace satisfies
the amended transition discipline. -/
theorem C2_amended_witness :
    adjacentOK (changeOK codeAllowed)
      (states (initState [{ id := 1, email := "a@x" }])
        [.create 1 "r1" "t" "b" 1060 1000 none none none none,
         .cancel 1 "r1", .snooze 1 "r1" 5 2000]) = true :=
  (C2_amended [{ id := 1, email := "a@x" }]
    [.create 1 "r1" "t" "b" 1060 1000 none none none none,
     .cancel 1 "r1", .snooze 1 "r1" 5 2000]).2

/-- Users present in the recurring-reminder scenario. -/
def scenarioUsers : List User := [{ id := 1, email := "a@x" }]

/-- The scenario state right after creating the recurring reminder
(now = 1000, when = now + 60 = 1060, repeat_interval = 86400). -/
def scenarioCreated : AppState :=
  create_reminder (initState scenarioUsers) 1 "r1" "Standup" "" 1060 1000 none
    (some 86400) none none

/-- The scenario state after the timer fired and the notifier re-armed. -/
def scenarioFired : AppState := fireStep defaultEnv scenarioCreated "r1"

/-- Claim C3 as stated: in the recurring scenario the poll with since = now
returns the reminder exactly once with its when equal to the original fire
time, and in general poll returns exactly the caller's reminders with
status 'fired' and when greater than since. -/
def pollClaim : Prop :=
  (∃ x : NotificationOut, poll_notifications scenarioFired 1 (some 1000) = [x] ∧
    x.when = 1060) ∧
  (∀ (st : AppState) (uid : Nat) (s : Int) (x : NotificationOut),
    x ∈ poll_notifications st uid (some s) ↔
      ∃ rem ∈ st.reminders, rem.status = "fired" ∧ rem.when_ts > s ∧
        rem.user_id = uid ∧ x = notifOut rem)

/-- Claim C3 counterexample: after the fire the re-arm has already
overwritten the row back to status 'scheduled' (with when advanced to the
next occurrence), so the poll filtered on status 'fired' returns the empty
list, not the reminder once. -/
theorem C3_counterexample : ¬ pollClaim := by
  intro h
  rcases h.1 with ⟨x, hx, _⟩
  have hempty : poll_notifications scenarioFired 1 (some 1000) = [] := by decide
  rw [hempty] at hx
  exact List.noConfusion hx

/-- Claim C3 (amended): in the recurring scenario the poll returns the
reminder zero times, because the re-arm immediately overwrites status back
to 'scheduled' and when to the next occurrence; in general, for a present
nonzero since, poll returns exactly the caller's reminders with status
'fired' and when greater than since, and with since absent (or zero, which
the code's truthiness test conflates with absent) the when filter is
dropped and all the caller's fired reminders are returned. -/
theorem C3_amended (st : AppState) (uid : Nat) (s : Int) (hs : s ≠ 0) :
    poll_notifications scenarioFired 1 (some 1000) = [] ∧
    (∀ x : NotificationOut, x ∈ poll_notifications st uid (some s) ↔
      ∃ rem ∈ st.reminders, rem.status = "fired" ∧ rem.when_ts > s ∧
        rem.user_id = uid ∧ x = notifOut rem) ∧
    (∀ x : NotificationOut, x ∈ poll_notifications st uid none ↔
      ∃ rem ∈ st.reminders, rem.status = "fired" ∧ rem.user_id = uid ∧
        x = notifOut rem) := by
  refine ⟨by decide, ?_, ?_⟩
  · intro x
    have htr : intTruthy (some s) = true := by simp [intTruthy, hs]
    unfold poll_notifications
    rw [htr, if_pos rfl]
    constructor
    · intro hx
      rcases List.mem_map.mp hx with ⟨r, hr, hxr⟩
      have hmf := List.mem_filter.mp hr
      have hconds := hmf.2
      simp only [Bool.and_eq_true, beq_iff_eq, decide_eq_true_eq,
        Option.getD_some] at hconds
      exact ⟨r, hmf.1, hconds.1.1, hconds.1.2, hconds.2, hxr.symm⟩
    · rintro ⟨r, hr, hst, hw, hu, rfl⟩
      apply List.mem_map_of_mem
      apply List.mem_filter.mpr
      refine ⟨hr, ?_⟩
      simp [hst, hw, hu]
  · intro x
    have htr : intTruthy none = false := rfl
    unfold poll_notifications
    rw [htr, if_neg Bool.false_ne_true]
    constructor
    · intro hx
      rcases List.mem_map.mp hx with ⟨r, hr, hxr⟩
      have hmf := List.mem_filter.mp hr
      have hconds := hmf.2
      simp only [Bool.and_eq_true, beq_iff_eq] at hconds
      exact ⟨r, hmf.1, hconds.1, hconds.2, hxr.symm⟩
    · rintro ⟨r, hr, hst, hu, rfl⟩
      apply List.mem_map_of_mem
      apply List.mem_filter.mpr
      refine ⟨hr, ?_⟩
      simp [hst, hu]

/-- Claim C3 amended witness: concrete since = 5 and the scenario state. -/
theorem C3_amended_witness :
    (5 : Int) ≠ 0 ∧ poll_notifications scenarioFired 1 (some 1000) = [] :=
  ⟨by decide, (C3_amended scenarioFired 1 5 (by decide)).1⟩

end ReminderAgent
